import Mathlib

/-!
Shallow embedding, in Lean 4, of the two pipelines of this repository:

* `src/quotes/fetch_lqdt.py`  — MOEX daily candles for the LQDT instrument,
  saved to an XLSX file (namespace `FetchLqdt`);
* `src/rates/fetch_usd_rub.py` — CBR EUR/RUB rates, saved to a Parquet file
  (namespace `FetchUsdRub`).

Modelling conventions:

* Calendar dates are day ordinals (`ℤ`) where only the `timedelta` day
  arithmetic of `build_date_range` matters, and explicit
  year/month/day structures (`Date`) where the code parses and compares
  concrete dates.  The `date(1, 1, 1) … date(9999, 12, 31)` range limits
  of the Python `datetime` library are not modelled: day arithmetic is
  over unbounded integers.
* `decimal.Decimal` values are modelled as exact rationals (`ℚ`).
  `Decimal.quantize(Decimal("0.0001"))` with the default context rounding
  (`ROUND_HALF_EVEN`) is modelled by `quantize4`.  The 28-significant-digit
  context precision of the `decimal` module is not modelled (division is
  exact); on the finite plain literals in scope the result is the same.
* The `Decimal(str)` constructor is modelled by `parseDecimal` on plain
  finite literals: optional sign, digits, optional fractional part after a
  dot.  Scientific notation, surrounding whitespace, and the special values
  `NaN`/`Infinity` that the constructor also accepts are outside the model.
* Python exceptions become `Except` values; an exception raised inside a
  `try` block is dispatched to the `except` clauses of that block by type,
  exactly as in Python.
-/

instance {e a : Type} [DecidableEq e] [DecidableEq a] : DecidableEq (Except e a) := fun x y =>
  match x, y with
  | .ok u, .ok v =>
    if h : u = v then .isTrue (by rw [h]) else .isFalse (fun hh => h (by injection hh))
  | .error u, .error v =>
    if h : u = v then .isTrue (by rw [h]) else .isFalse (fun hh => h (by injection hh))
  | .ok _, .error _ => .isFalse (fun hh => Except.noConfusion hh)
  | .error _, .ok _ => .isFalse (fun hh => Except.noConfusion hh)

/-- A calendar `datetime.date`, shared by both pipelines.
Python `date` objects compare lexicographically by (year, month, day). -/
structure Date where
  year : ℕ
  month : ℕ
  day : ℕ
deriving DecidableEq, Repr

/-- The Python `date` total order: lexicographic on (year, month, day). -/
def Date.le (a b : Date) : Prop :=
  a.year < b.year ∨
    (a.year = b.year ∧ (a.month < b.month ∨ (a.month = b.month ∧ a.day ≤ b.day)))

instance : DecidableRel Date.le := fun a b => by
  unfold Date.le
  exact inferInstance

instance : IsTotal Date Date.le := ⟨by intro a b; unfold Date.le; omega⟩

instance : IsTrans Date Date.le := ⟨by intro a b c; unfold Date.le; omega⟩

/-- Gregorian leap-year rule, as used by `datetime` when validating a day. -/
def isLeap (y : ℕ) : Bool :=
  (y % 4 = 0 && y % 100 != 0) || y % 400 = 0

/-- Number of days in a month, as used by `datetime` when validating a day. -/
def daysInMonth (y m : ℕ) : ℕ :=
  if m = 2 then (if isLeap y then 29 else 28)
  else if m = 4 ∨ m = 6 ∨ m = 9 ∨ m = 11 then 30
  else 31

/-- Decimal rendering of a natural number left-padded with zeros to `w`
digits, as produced by the `%02d`-style fields of `strftime`/`isoformat`. -/
def padNat (w n : ℕ) : String :=
  let s := toString n
  (String.mk (List.replicate (w - s.length) '0')) ++ s

/-- `date.isoformat()`: `YYYY-MM-DD` with zero padding. -/
def Date.isoformat (d : Date) : String :=
  padNat 4 d.year ++ "-" ++ padNat 2 d.month ++ "-" ++ padNat 2 d.day

/-- A `datetime.datetime` value, to the minute precision the quote pipeline
uses for its creation timestamp. -/
structure DateTime where
  year : ℕ
  month : ℕ
  day : ℕ
  hour : ℕ
  minute : ℕ
deriving DecidableEq, Repr

/-- `created_at.strftime("%Y-%m-%d_%H-%M")`. -/
def DateTime.fmtMinute (t : DateTime) : String :=
  padNat 4 t.year ++ "-" ++ padNat 2 t.month ++ "-" ++ padNat 2 t.day ++ "_" ++
    padNat 2 t.hour ++ "-" ++ padNat 2 t.minute

namespace FetchUsdRub

/-- Numeric value of a digit list (most significant first). -/
def digitsVal (cs : List Char) : ℕ :=
  cs.foldl (fun a c => a * 10 + (c.toNat - 48)) 0

/-- `some` of the numeric value when `cs` is a non-empty run of ASCII digits,
`none` otherwise. -/
def digitsToNat (cs : List Char) : Option ℕ :=
  if cs ≠ [] ∧ cs.all Char.isDigit then some (digitsVal cs) else none

/-- Splits a character list on the dot character; mirrors how
`strptime` with format `"%d.%m.%Y"` cuts the input at the literal dots. -/
def splitDots : List Char → List (List Char)
  | [] => [[]]
  | c :: rest =>
    match splitDots rest with
    | [] => [[]]
    | g :: gs => if c = '.' then [] :: g :: gs else (c :: g) :: gs

/-- `datetime.strptime(s, "%d.%m.%Y").date()` as an `Option`:
day and month are 1–2 digit fields, the year a 1–4 digit field, and the
resulting (day, month, year) triple must be a valid calendar date
(month 1–12, day within the month, year at least `MINYEAR = 1`). -/
def parseDateDMY (s : String) : Option Date :=
  match splitDots s.toList with
  | [ds, ms, ys] =>
    match digitsToNat ds, digitsToNat ms, digitsToNat ys with
    | some dd, some mm, some yy =>
      if ds.length ≤ 2 ∧ ms.length ≤ 2 ∧ ys.length ≤ 4 ∧
          1 ≤ mm ∧ mm ≤ 12 ∧ 1 ≤ yy ∧ 1 ≤ dd ∧ dd ≤ daysInMonth yy mm
      then some ⟨yy, mm, dd⟩
      else none
    | _, _, _ => none
  | _ => none

/-- A finite `decimal.Decimal` value, kept as Python keeps it: a signed
integer mantissa and the number of digits after the decimal point
(the negated exponent).  The value denoted is `num / 10 ^ shift`. -/
structure Dec where
  num : ℤ
  shift : ℕ
deriving DecidableEq, Repr

/-- The exact rational value of a finite `Decimal`. -/
def Dec.toRat (d : Dec) : ℚ :=
  (d.num : ℚ) / 10 ^ d.shift

/-- Core of `parseDecimal`: optional sign, then digits with an optional
fractional part after a dot, at least one digit overall. -/
def parseDecCore (cs : List Char) : Option Dec :=
  let signed : ℤ × List Char :=
    match cs with
    | '+' :: t => (1, t)
    | '-' :: t => (-1, t)
    | t => (1, t)
  let sign := signed.1
  let body := signed.2
  let intPart := body.takeWhile Char.isDigit
  let rest := body.dropWhile Char.isDigit
  match rest with
  | [] =>
    if intPart = [] then none
    else some ⟨sign * digitsVal intPart, 0⟩
  | '.' :: frac =>
    if frac.all Char.isDigit ∧ (intPart ≠ [] ∨ frac ≠ []) then
      some ⟨sign * (digitsVal intPart * 10 ^ frac.length + digitsVal frac : ℕ), frac.length⟩
    else none
  | _ => none

/-- The `decimal.Decimal(str)` constructor on plain finite literals
(see the module docstring for what is outside the model). -/
def parseDecimal (s : String) : Option Dec :=
  parseDecCore s.toList

/-- `s.replace(",", ".")` — CBR serves decimal-comma numbers. -/
def commaToDot (s : String) : String :=
  String.mk (s.data.map fun c => if c = ',' then '.' else c)

/-- Round a rational to the nearest integer, ties to the even integer —
the `ROUND_HALF_EVEN` default rounding of the `decimal` module. -/
def roundHalfEven (q : ℚ) : ℤ :=
  if q - (⌊q⌋ : ℚ) < 1 / 2 then ⌊q⌋
  else if 1 / 2 < q - (⌊q⌋ : ℚ) then ⌊q⌋ + 1
  else if ⌊q⌋ % 2 = 0 then ⌊q⌋ else ⌊q⌋ + 1

/-- `x.quantize(Decimal("0.0001"))` under the default context rounding:
round to 4 decimal places, half to even. -/
def quantize4 (q : ℚ) : ℚ :=
  (roundHalfEven (q * 10000) : ℚ) / 10000

/-- Half-even rounding of `a / b` for a positive denominator `b`, computed
with Euclidean integer division. -/
def roundHalfEvenCore (a b : ℤ) : ℤ :=
  if 2 * (a % b) < b then a / b
  else if b < 2 * (a % b) then a / b + 1
  else if (a / b) % 2 = 0 then a / b else a / b + 1

/-- `roundHalfEven` of the fraction `a / b` (`b ≠ 0`), computed with integer
division so that concrete instances evaluate; `roundHalfEvenFrac_eq` proves
it agrees with `roundHalfEven`. -/
def roundHalfEvenFrac (a b : ℤ) : ℤ :=
  if b < 0 then roundHalfEvenCore (-a) (-b) else roundHalfEvenCore a b

/-- `(value / nominal).quantize(DECIMAL_QUANT)` as the integer mantissa of the
result (whose exponent is `-4`): the exact rational `v / n` rounded half-even
at 4 decimal places.  `quantizeDiv4_toRat` proves it agrees with `quantize4`
on the rational values. -/
def quantizeDiv4 (v n : Dec) : ℤ :=
  roundHalfEvenFrac (v.num * 10 ^ n.shift * 10 ^ 4) (n.num * 10 ^ v.shift)

/-- `class RateFetchError(RuntimeError)` — base exception for rate-fetch
errors; it carries a message string. -/
structure RateFetchError where
  msg : String
deriving DecidableEq, Repr

/-- `@dataclass(frozen=True) class RateRecord` — the EUR/RUB rate on a
concrete date.  `value` is the quantized `Decimal` the parser stores
(its `shift` is always 4 after `quantize(DECIMAL_QUANT)`). -/
structure RateRecord where
  as_of : Date
  value : Dec
deriving DecidableEq, Repr

/-- The sort order used by `records.sort(key=lambda item: item.as_of)`. -/
def recLe (a b : RateRecord) : Prop :=
  Date.le a.as_of b.as_of

instance : DecidableRel recLe := fun a b => by
  unfold recLe Date.le
  exact inferInstance

instance : IsTotal RateRecord recLe := ⟨by intro a b; unfold recLe Date.le; omega⟩

instance : IsTrans RateRecord recLe := ⟨by intro a b c; unfold recLe Date.le; omega⟩

/-- One `Record` element of the XML payload, as accessed by `_parse_rates`
(lines 81–83): `record.attrib.get("Date")` and
`_text_or_none(record.find("Value"))` / `_text_or_none(record.find("Nominal"))`.
A field is `none` both when the element/attribute is missing and when the
element is present with no text, exactly the two cases `_text_or_none`
collapses to `None`. -/
structure XmlRecord where
  dateAttr : Option String
  valueText : Option String
  nominalText : Option String
deriving DecidableEq, Repr

/-- Python truthiness of `attr` in `if not date_attr`: false for `None` and
for the empty string. -/
def falsyOptStr : Option String → Bool
  | none => true
  | some s => s.isEmpty

/-- The per-record body of the `for record in root.findall("Record")` loop of
`_parse_rates` (lines 81–103).  Mirrors the source order: required-fields
check, date parse, nominal parse (defaulting to 1 when the text is missing or
empty), value parse, zero-nominal check, then
`(value / nominal).quantize(DECIMAL_QUANT)`. -/
def parseRecord (r : XmlRecord) : Except RateFetchError RateRecord :=
  if falsyOptStr r.dateAttr || r.valueText.isNone then
    .error ⟨"В ответе отсутствуют обязательные поля."⟩
  else
    let dateStr := r.dateAttr.getD ""
    let valueStr := r.valueText.getD ""
    match parseDateDMY dateStr with
    | none => .error ⟨"Некорректная дата в ответе ЦБ РФ: " ++ dateStr⟩
    | some d =>
      let nominalOpt : Option Dec :=
        match r.nominalText with
        | some s => if s.isEmpty then some ⟨1, 0⟩ else parseDecimal (commaToDot s)
        | none => some ⟨1, 0⟩
      match nominalOpt with
      | none => .error ⟨"Некорректное числовое значение в ответе ЦБ РФ: " ++ valueStr⟩
      | some n =>
        match parseDecimal (commaToDot valueStr) with
        | none => .error ⟨"Некорректное числовое значение в ответе ЦБ РФ: " ++ valueStr⟩
        | some v =>
          if n.num = 0 then .error ⟨"Номинал курса не может быть равен нулю."⟩
          else .ok ⟨d, ⟨quantizeDiv4 v n, 4⟩⟩

/-- The record defects enumerated by the spec as fatal for `_parse_rates`:
a missing `Date` attribute, a missing `Value` field, `Value` or `Nominal`
text that does not parse as a number, or a `Nominal` that parses to zero.
A missing or empty `Nominal` is not a defect — the code falls back to a
nominal of 1 in exactly those two cases, so only non-empty unparseable
`Nominal` text counts as "cannot be parsed". -/
def badRecord (r : XmlRecord) : Bool :=
  r.dateAttr.isNone || r.valueText.isNone ||
    (match r.valueText with
     | some s => (parseDecimal (commaToDot s)).isNone
     | none => false) ||
    (match r.nominalText with
     | some s =>
       if s.isEmpty then false
       else
         match parseDecimal (commaToDot s) with
         | none => true
         | some n => n.num = 0
     | none => false)

/-- The record loop of `_parse_rates`: records are appended in input order,
and the first failing record aborts the whole parse. -/
def parseRecords : List XmlRecord → Except RateFetchError (List RateRecord)
  | [] => .ok []
  | r :: rest =>
    match parseRecord r with
    | .error e => .error e
    | .ok x =>
      match parseRecords rest with
      | .error e => .error e
      | .ok xs => .ok (x :: xs)

/-- A response-body byte payload, as seen through `ElementTree.fromstring`:
either it is not well-formed XML (`fromstring` raises `ParseError`), or it is
well-formed and `root.findall("Record")` yields a list of `Record` elements. -/
inductive Payload
  | malformed
  | wellFormed (records : List XmlRecord)
deriving DecidableEq, Repr

/-- `_parse_rates` (lines 71–106): a `ParseError` from `fromstring` becomes a
`RateFetchError`; otherwise the records are parsed in order and finally
sorted ascending by `as_of` (`records.sort(key=lambda item: item.as_of)`,
modelled by a stable insertion sort). -/
def parse_rates : Payload → Except RateFetchError (List RateRecord)
  | .malformed => .error ⟨"Не удалось распарсить ответ ЦБ РФ."⟩
  | .wellFormed rs =>
    match parseRecords rs with
    | .error e => .error e
    | .ok records => .ok (List.insertionSort recLe records)

/-- `build_date_range` of `fetch_usd_rub.py` (lines 36–43), days mode.
Dates are day ordinals; `today` stands for `date.today()`, used when no end
date is supplied. -/
def build_date_range (days : ℤ) (end_date : Option ℤ) (today : ℤ) :
    Except String (ℤ × ℤ) :=
  if days < 1 then .error "Число дней должно быть положительным."
  else
    let effective_end := end_date.getD today
    .ok (effective_end - (days - 1), effective_end)

/-- A `pyarrow` table as `build_table` assembles it: a `rate_date` column, a
`rate_value` column (decimal with 4 fractional digits), and string schema
metadata.  The UTF-8 encoding of the metadata values is not modelled. -/
structure ArrowTable where
  rate_date : List Date
  rate_value : List Dec
  metadata : List (String × String)
deriving DecidableEq, Repr

/-- `build_table` (lines 116–129): refuses an empty record list, otherwise
builds the two columns in record order and attaches the metadata. -/
def build_table (records : List RateRecord) (metadata : List (String × String)) :
    Except String ArrowTable :=
  if records = [] then .error "Нельзя построить таблицу без данных."
  else .ok ⟨records.map (·.as_of), records.map (·.value), metadata⟩

end FetchUsdRub

namespace FetchLqdt

/-- `SECURITY = "LQDT"`. -/
def SECURITY : String := "LQDT"

/-- `class QuoteFetchError(RuntimeError)` — base exception for quote-fetch
errors; it carries a message string. -/
structure QuoteFetchError where
  msg : String
deriving DecidableEq, Repr

/-- One raw candle row as returned by `apimoex.get_board_candles`.
The exact field values play no role in the fetch-path claims, so the row is
kept as an opaque mapping from column name to cell text. -/
structure Candle where
  cells : List (String × String)
deriving DecidableEq, Repr

/-- What the call `apimoex.get_board_candles(...)` inside the `try` block of
`_execute_fetch` does: it either returns a list of rows, raises a
`requests.RequestException`, or raises some other exception.  The message
string is `str(exc)`. -/
inductive ApiOutcome
  | success (data : List Candle)
  | raiseRequestException (msg : String)
  | raiseOtherException (msg : String)
deriving DecidableEq, Repr

/-- The exceptions that can leave the `try` body of `_execute_fetch`
(lines 54–69): the `QuoteFetchError` raised on an empty dataset, a
`requests.RequestException` from the API call, or any other exception. -/
inductive TryExc
  | quoteFetchError (msg : String)
  | requestException (msg : String)
  | otherException (msg : String)
deriving DecidableEq, Repr

/-- `str(exc)` for the exceptions of `TryExc`. -/
def TryExc.message : TryExc → String
  | .quoteFetchError m => m
  | .requestException m => m
  | .otherException m => m

/-- The `try` body of `_execute_fetch` (lines 55–69): call the API, raise
`QuoteFetchError` when the returned dataset is empty, return it otherwise. -/
def tryBody (outcome : ApiOutcome) : Except TryExc (List Candle) :=
  match outcome with
  | .success data =>
    if data = [] then
      .error (.quoteFetchError ("МосБиржа вернула пустой набор данных для " ++ SECURITY ++ "."))
    else .ok data
  | .raiseRequestException m => .error (.requestException m)
  | .raiseOtherException m => .error (.otherException m)

/-- `_execute_fetch` (lines 48–75).  An exception raised anywhere in the
`try` body — including the `QuoteFetchError` raised on an empty dataset at
line 68 — is dispatched to the `except` clauses of the same `try`:
`except requests.RequestException` wraps transport errors, and the catch-all
`except Exception` (which a `QuoteFetchError` also matches, being a
`RuntimeError`) wraps everything else with the unexpected-error prefix. -/
def execute_fetch (outcome : ApiOutcome) : Except QuoteFetchError (List Candle) :=
  match tryBody outcome with
  | .ok data => .ok data
  | .error (.requestException m) =>
    .error ⟨"Ошибка при запросе к API МосБиржи: " ++ m⟩
  | .error e =>
    .error ⟨"Неожиданная ошибка при получении данных: " ++ e.message⟩

/-- `build_date_range` of `fetch_lqdt.py` (lines 25–32), years mode.
Dates are day ordinals; `today` stands for `date.today()`, used when no end
date is supplied. -/
def build_date_range (years : ℤ) (end_date : Option ℤ) (today : ℤ) :
    Except String (ℤ × ℤ) :=
  if years < 1 then .error "Число лет должно быть положительным."
  else
    let effective_end := end_date.getD today
    .ok (effective_end - years * 365, effective_end)

/-- `build_dataframe` (lines 78–110), modelled at row level: it refuses an
empty candle list; otherwise the pandas column selection/renaming is
presentational and the rows come out sorted ascending by the `begin`
timestamp (ISO strings sort chronologically). -/
def build_dataframe (candles : List Candle) : Except String (List Candle) :=
  if candles = [] then .error "Нельзя построить DataFrame без данных."
  else
    .ok (List.insertionSort
      (fun a b => ((a.cells.lookup "begin").getD "") ≤ ((b.cells.lookup "begin").getD "")) candles)

/-- `generate_output_filename` (lines 113–116). -/
def generate_output_filename (date_from date_to : Date) (created_at : DateTime) : String :=
  "lqdt_rates_" ++ date_from.isoformat ++ "_" ++ date_to.isoformat ++ "_" ++
    created_at.fmtMinute ++ ".xlsx"

end FetchLqdt

/-! Helper lemmas. -/

namespace FetchUsdRub

theorem roundHalfEvenCore_eq (a b : ℤ) (hb : 0 < b) :
    roundHalfEvenCore a b = roundHalfEven ((a : ℚ) / (b : ℚ)) := by
  have hbne : b ≠ 0 := hb.ne'
  have hbQ : (0 : ℚ) < (b : ℚ) := by exact_mod_cast hb
  set q : ℤ := a / b with hq
  set r : ℤ := a % b with hr
  have hdecomp : b * q + r = a := Int.ediv_add_emod a b
  have hr0 : 0 ≤ r := Int.emod_nonneg a hbne
  have hrb : r < b := Int.emod_lt_of_pos a hb
  have hx : (a : ℚ) / b = (q : ℚ) + (r : ℚ) / b := by
    have ha : (a : ℚ) = (b : ℚ) * q + r := by exact_mod_cast hdecomp.symm
    rw [ha]
    field_simp
    ring
  have hfloor : ⌊(a : ℚ) / b⌋ = q := by
    rw [hx, Int.floor_int_add]
    have h0 : ⌊(r : ℚ) / b⌋ = 0 := by
      rw [Int.floor_eq_zero_iff]
      constructor
      · exact div_nonneg (by exact_mod_cast hr0) hbQ.le
      · rw [div_lt_one hbQ]
        exact_mod_cast hrb
    rw [h0, add_zero]
  have hfrac : (a : ℚ) / b - (⌊(a : ℚ) / b⌋ : ℚ) = (r : ℚ) / b := by
    rw [hfloor, hx]
    ring
  have c1 : ((r : ℚ) / b < 1 / 2) ↔ 2 * r < b := by
    rw [div_lt_div_iff₀ hbQ (by norm_num : (0 : ℚ) < 2), one_mul, mul_comm]
    exact_mod_cast Iff.rfl
  have c2 : ((1 : ℚ) / 2 < (r : ℚ) / b) ↔ b < 2 * r := by
    rw [div_lt_div_iff₀ (by norm_num : (0 : ℚ) < 2) hbQ, one_mul, mul_comm]
    exact_mod_cast Iff.rfl
  unfold roundHalfEven roundHalfEvenCore
  rw [hfrac, hfloor]
  rcases lt_trichotomy (2 * r) b with h | h | h
  · rw [if_pos h, if_pos (c1.mpr h)]
  · have l1 : ¬(2 * r < b) := by omega
    have l2 : ¬(b < 2 * r) := by omega
    rw [if_neg l1, if_neg l2, if_neg (fun hh => l1 (c1.mp hh)), if_neg (fun hh => l2 (c2.mp hh))]
  · have l1 : ¬(2 * r < b) := by omega
    rw [if_neg l1, if_pos h, if_neg (fun hh => l1 (c1.mp hh)), if_pos (c2.mpr h)]

theorem roundHalfEvenFrac_eq (a b : ℤ) (hb : b ≠ 0) :
    roundHalfEvenFrac a b = roundHalfEven ((a : ℚ) / (b : ℚ)) := by
  unfold roundHalfEvenFrac
  rcases lt_or_gt_of_ne hb with hneg | hpos
  · rw [if_pos hneg, roundHalfEvenCore_eq _ _ (by omega)]
    congr 1
    push_cast
    rw [neg_div_neg_eq]
  · rw [if_neg (by omega), roundHalfEvenCore_eq _ _ hpos]

/-- The integer computation of the parser agrees with the mathematical
description of `(value / nominal).quantize(DECIMAL_QUANT)`: the exact
quotient of the two decimal values, rounded half-even at 4 decimal places. -/
theorem quantizeDiv4_toRat (v n : Dec) (hn : n.num ≠ 0) :
    Dec.toRat ⟨quantizeDiv4 v n, 4⟩ = quantize4 (v.toRat / n.toRat) := by
  unfold quantizeDiv4 quantize4 Dec.toRat
  rw [roundHalfEvenFrac_eq _ _ (mul_ne_zero hn (pow_ne_zero _ (by norm_num)))]
  have harg : ((v.num * 10 ^ n.shift * 10 ^ 4 : ℤ) : ℚ) / ((n.num * 10 ^ v.shift : ℤ) : ℚ)
      = (v.num : ℚ) / 10 ^ v.shift / ((n.num : ℚ) / 10 ^ n.shift) * 10000 := by
    have h1 : ((10 : ℚ) ^ v.shift) ≠ 0 := by positivity
    have h2 : ((10 : ℚ) ^ n.shift) ≠ 0 := by positivity
    have h3 : ((n.num : ℚ)) ≠ 0 := by exact_mod_cast hn
    field_simp
    ring
  rw [harg]
  norm_num

/-- A record with any of the defects of `badRecord` makes `parseRecord` fail. -/
theorem parseRecord_error_of_bad (r : XmlRecord) (hbad : badRecord r = true) :
    ∃ e, parseRecord r = .error e := by
  obtain ⟨da, vt, nt⟩ := r
  unfold parseRecord
  by_cases hg : (falsyOptStr da || vt.isNone) = true
  · rw [if_pos hg]
    exact ⟨_, rfl⟩
  · rw [if_neg hg]
    simp only [Bool.or_eq_true, not_or, Bool.not_eq_true] at hg
    obtain ⟨hda, hvt⟩ := hg
    cases da with
    | none => simp [falsyOptStr] at hda
    | some ds =>
    cases vt with
    | none => simp at hvt
    | some vs =>
    simp only [Option.getD_some]
    cases hdd : parseDateDMY ds with
    | none => exact ⟨_, rfl⟩
    | some d =>
    simp only [badRecord, Option.isNone_some, Bool.or_eq_true, Option.isNone_none] at hbad
    cases hvv : parseDecimal (commaToDot vs) with
    | none =>
      cases nt with
      | none => simp [hvv]
      | some s =>
        by_cases hse : s.isEmpty = true
        · simp [hse, hvv]
        · cases hnn : parseDecimal (commaToDot s) with
          | none => simp [hse, hnn]
          | some n =>
            simp only [Bool.not_eq_true] at hse
            simp [hse, hnn, hvv]
    | some v =>
      cases nt with
      | none =>
        exfalso
        simp [falsyOptStr, hvv, Option.isNone] at hbad hda
      | some s =>
        by_cases hse : s.isEmpty = true
        · exfalso
          simp [falsyOptStr, hvv, hse, Option.isNone] at hbad hda
        · simp only [Bool.not_eq_true] at hse
          cases hnn : parseDecimal (commaToDot s) with
          | none => simp [hse, hnn]
          | some n =>
            have hz : n.num = 0 := by
              simp [falsyOptStr, hvv, hse, hnn, Option.isNone] at hbad hda
              exact hbad
            simp [hse, hnn, hvv, hz]

/-- A failing record anywhere in the list makes the whole record loop fail. -/
theorem parseRecords_error_of_mem (recs : List XmlRecord) (r : XmlRecord)
    (hmem : r ∈ recs) (herr : ∃ e, parseRecord r = .error e) :
    ∃ e, parseRecords recs = .error e := by
  induction recs with
  | nil => cases hmem
  | cons a tl ih =>
    cases hmem with
    | head =>
      obtain ⟨e, he⟩ := herr
      exact ⟨e, by unfold parseRecords; rw [he]⟩
    | tail _ hmem' =>
      cases ha : parseRecord a with
      | error e => exact ⟨e, by unfold parseRecords; rw [ha]⟩
      | ok x =>
        obtain ⟨e, he⟩ := ih hmem'
        exact ⟨e, by unfold parseRecords; rw [ha, he]⟩

end FetchUsdRub

/-! Claim theorems. -/

open FetchUsdRub

/-- Claim C1: when the exchange API call returns an empty dataset,
`_execute_fetch` is claimed to fail with a fetch error identifying the
empty-dataset case (distinct from the network and unexpected cases) and
naming the instrument LQDT, and every raised `requests` transport exception
is claimed to escape only as a wrapped `QuoteFetchError`.  What the code
does: the empty-dataset `QuoteFetchError` raised inside the `try` block is
caught by the block's own catch-all `except Exception` and re-raised with
the unexpected-error prefix, so the escaping message carries the
unexpected-error label (with the LQDT-naming text embedded); transport
exceptions are wrapped as claimed. -/
theorem execute_fetch_empty_dataset_wrapped_as_unexpected :
    FetchLqdt.execute_fetch (.success []) =
      .error ⟨"Неожиданная ошибка при получении данных: " ++
        "МосБиржа вернула пустой набор данных для LQDT."⟩ ∧
    (∀ m, FetchLqdt.execute_fetch (.raiseRequestException m) =
      .error ⟨"Ошибка при запросе к API МосБиржи: " ++ m⟩) :=
  ⟨rfl, fun _ => rfl⟩

/-- Claim C2: for every XML record whose `Value` text parses to a decimal `v`
and whose `Nominal` text parses to a non-zero decimal `n` (date and required
fields in order), the record produced by `_parse_rates` carries the per-unit
value `v / n` quantized to exactly 4 decimal places with round-half-even;
in particular value `94,2000` with nominal `2` gives `47.1000`, and the ties
`0.00015` and `0.00025` both round to `0.0002` (banker's rounding). -/
theorem parse_record_normalizes_half_even (ds vs ns : String) (d : Date) (v n : Dec)
    (hds : ds.isEmpty = false) (hd : parseDateDMY ds = some d)
    (hv : parseDecimal (commaToDot vs) = some v)
    (hns : ns.isEmpty = false) (hn : parseDecimal (commaToDot ns) = some n)
    (hnz : n.num ≠ 0) :
    parseRecord ⟨some ds, some vs, some ns⟩ = .ok ⟨d, ⟨quantizeDiv4 v n, 4⟩⟩ ∧
    Dec.toRat ⟨quantizeDiv4 v n, 4⟩ = quantize4 (v.toRat / n.toRat) ∧
    parseRecord ⟨some "17.11.2025", some "94,2000", some "2"⟩ =
      .ok ⟨⟨2025, 11, 17⟩, ⟨471000, 4⟩⟩ ∧
    Dec.toRat ⟨471000, 4⟩ = 471 / 10 ∧
    quantizeDiv4 ⟨15, 5⟩ ⟨1, 0⟩ = 2 ∧ quantizeDiv4 ⟨25, 5⟩ ⟨1, 0⟩ = 2 := by
  refine ⟨?_, quantizeDiv4_toRat v n hnz, by decide, by norm_num [Dec.toRat], by decide, by decide⟩
  unfold parseRecord
  simp only [falsyOptStr, hds, Option.isNone_some, Bool.or_self, Bool.false_eq_true,
    if_false, Option.getD_some, hd, hns, if_false, hn, hv]
  rw [if_neg hnz]

theorem parse_record_normalizes_half_even_witness :
    parseRecord ⟨some "17.11.2025", some "94,2000", some "2"⟩ =
      .ok ⟨⟨2025, 11, 17⟩, ⟨quantizeDiv4 ⟨942000, 4⟩ ⟨2, 0⟩, 4⟩⟩ :=
  (parse_record_normalizes_half_even "17.11.2025" "94,2000" "2" ⟨2025, 11, 17⟩
    ⟨942000, 4⟩ ⟨2, 0⟩ (by decide) (by decide) (by decide) (by decide) (by decide) (by decide)).1

/-- Claim C3: every record list `_parse_rates` returns is sorted ascending by
the `as_of` date regardless of input order; feeding a record dated 18.11.2025
before one dated 17.11.2025 yields the 17th before the 18th. -/
theorem parse_rates_sorted_by_date (p : Payload) (rs : List RateRecord)
    (h : parse_rates p = .ok rs) :
    List.Sorted recLe rs ∧
    parse_rates (.wellFormed
        [⟨some "18.11.2025", some "94,2", some "1"⟩,
         ⟨some "17.11.2025", some "95,5", some "1"⟩]) =
      .ok [⟨⟨2025, 11, 17⟩, ⟨955000, 4⟩⟩, ⟨⟨2025, 11, 18⟩, ⟨942000, 4⟩⟩] := by
  refine ⟨?_, rfl⟩
  cases p with
  | malformed => exact Except.noConfusion h
  | wellFormed recs =>
    have key : parse_rates (.wellFormed recs) =
        (match parseRecords recs with
         | .error e => .error e
         | .ok records => .ok (List.insertionSort recLe records)) := rfl
    rw [key] at h
    cases hp : parseRecords recs with
    | error e =>
      rw [hp] at h
      have h2 : (Except.error e : Except RateFetchError (List RateRecord)) = Except.ok rs := h
      exact Except.noConfusion h2
    | ok xs =>
      rw [hp] at h
      have h2 : Except.ok (List.insertionSort recLe xs) = Except.ok rs := h
      rw [← Except.ok.inj h2]
      exact List.sorted_insertionSort recLe xs

theorem parse_rates_sorted_by_date_witness :
    List.Sorted recLe [⟨⟨2025, 11, 17⟩, ⟨955000, 4⟩⟩, ⟨⟨2025, 11, 18⟩, ⟨942000, 4⟩⟩] ∧
    parse_rates (.wellFormed
        [⟨some "18.11.2025", some "94,2", some "1"⟩,
         ⟨some "17.11.2025", some "95,5", some "1"⟩]) =
      .ok [⟨⟨2025, 11, 17⟩, ⟨955000, 4⟩⟩, ⟨⟨2025, 11, 18⟩, ⟨942000, 4⟩⟩] :=
  parse_rates_sorted_by_date
    (.wellFormed
      [⟨some "18.11.2025", some "94,2", some "1"⟩,
       ⟨some "17.11.2025", some "95,5", some "1"⟩])
    [⟨⟨2025, 11, 17⟩, ⟨955000, 4⟩⟩, ⟨⟨2025, 11, 18⟩, ⟨942000, 4⟩⟩] rfl

/-- Claim C4: for every count `≥ 1` and any end date (explicit, or the
current date when none is supplied), `build_date_range` returns
`(start, end)` with `start ≤ end`, where the years variant puts
`start = end - count * 365` days and the days variant puts
`start = end - (count - 1)` days — a window of exactly `count` calendar days
inclusive of both endpoints. -/
theorem build_date_range_window (count : ℤ) (end_date : Option ℤ) (today : ℤ)
    (h : 1 ≤ count) :
    FetchLqdt.build_date_range count end_date today =
      .ok (end_date.getD today - count * 365, end_date.getD today) ∧
    FetchUsdRub.build_date_range count end_date today =
      .ok (end_date.getD today - (count - 1), end_date.getD today) ∧
    end_date.getD today - count * 365 ≤ end_date.getD today ∧
    end_date.getD today - (count - 1) ≤ end_date.getD today ∧
    end_date.getD today - (end_date.getD today - (count - 1)) + 1 = count := by
  unfold FetchLqdt.build_date_range FetchUsdRub.build_date_range
  rw [if_neg (by omega), if_neg (by omega)]
  refine ⟨rfl, rfl, by omega, by omega, by omega⟩

theorem build_date_range_window_witness :
    FetchLqdt.build_date_range 2 (some 100) 0 = .ok (100 - 2 * 365, 100) ∧
    FetchUsdRub.build_date_range 2 (some 100) 0 = .ok (100 - (2 - 1), 100) ∧
    (100 : ℤ) - 2 * 365 ≤ 100 ∧ (100 : ℤ) - (2 - 1) ≤ 100 ∧
    (100 : ℤ) - (100 - (2 - 1)) + 1 = 2 :=
  build_date_range_window 2 (some 100) 0 (by decide)

/-- Claim C5: for every count `< 1` and any end date, both variants of
`build_date_range` fail with an invalid-argument error (`ValueError`),
producing no range. -/
theorem build_date_range_rejects_nonpositive (count : ℤ) (end_date : Option ℤ) (today : ℤ)
    (h : count < 1) :
    FetchLqdt.build_date_range count end_date today =
      .error "Число лет должно быть положительным." ∧
    FetchUsdRub.build_date_range count end_date today =
      .error "Число дней должно быть положительным." := by
  unfold FetchLqdt.build_date_range FetchUsdRub.build_date_range
  rw [if_pos h, if_pos h]
  exact ⟨rfl, rfl⟩

theorem build_date_range_rejects_nonpositive_witness :
    (FetchLqdt.build_date_range 0 (some 5) 3 =
      .error "Число лет должно быть положительным." ∧
    FetchUsdRub.build_date_range 0 (some 5) 3 =
      .error "Число дней должно быть положительным.") ∧
    (FetchLqdt.build_date_range (-7) none 3 =
      .error "Число лет должно быть положительным." ∧
    FetchUsdRub.build_date_range (-7) none 3 =
      .error "Число дней должно быть положительным.") :=
  ⟨build_date_range_rejects_nonpositive 0 (some 5) 3 (by decide),
   build_date_range_rejects_nonpositive (-7) none 3 (by decide)⟩

/-- Claim C6: a well-formed payload containing a record that lacks a `Date`
attribute or a `Value` field, or whose `Value` or `Nominal` text does not
parse as a number, or whose `Nominal` parses to zero, makes `_parse_rates`
fail with a `RateFetchError` and return no records. -/
theorem parse_rates_rejects_defective_record (recs : List XmlRecord) (r : XmlRecord)
    (hmem : r ∈ recs) (hbad : badRecord r = true) :
    ∃ e, parse_rates (.wellFormed recs) = .error e := by
  obtain ⟨e, he⟩ := parseRecords_error_of_mem recs r hmem (parseRecord_error_of_bad r hbad)
  refine ⟨e, ?_⟩
  have key : parse_rates (.wellFormed recs) =
      (match parseRecords recs with
       | .error e => .error e
       | .ok records => .ok (List.insertionSort recLe records)) := rfl
  rw [key, he]

theorem parse_rates_rejects_defective_record_witness :
    ((⟨some "17.11.2025", some "abc", some "2"⟩ : XmlRecord) ∈
      [(⟨some "17.11.2025", some "abc", some "2"⟩ : XmlRecord)] ∧
     badRecord ⟨some "17.11.2025", some "abc", some "2"⟩ = true) ∧
    ∃ e, parse_rates (.wellFormed [⟨some "17.11.2025", some "abc", some "2"⟩]) = .error e :=
  ⟨⟨by decide, by decide⟩,
   parse_rates_rejects_defective_record
     [⟨some "17.11.2025", some "abc", some "2"⟩]
     ⟨some "17.11.2025", some "abc", some "2"⟩ (by decide) (by decide)⟩

/-- Claim C7: a payload that is not well-formed XML makes `_parse_rates` fail
with the parse-error `RateFetchError`; no record list (empty or otherwise) is
returned for malformed input. -/
theorem parse_rates_malformed_payload :
    parse_rates .malformed = .error ⟨"Не удалось распарсить ответ ЦБ РФ."⟩ :=
  rfl

/-- Claim C8: given zero records, both table constructors fail with a
construction-time error — `build_dataframe` of the spreadsheet pipeline and
`build_table` of the columnar pipeline both reject an empty list, so no
output artifact is produced for an empty dataset. -/
theorem table_constructors_reject_empty :
    FetchLqdt.build_dataframe [] = .error "Нельзя построить DataFrame без данных." ∧
    ∀ metadata, FetchUsdRub.build_table [] metadata =
      .error "Нельзя построить таблицу без данных." :=
  ⟨rfl, fun _ => rfl⟩

/-- Claim C9: `generate_output_filename` always returns
`lqdt_rates_<start ISO>_<end ISO>_<created YYYY-MM-DD_HH-MM>.xlsx`; for
start 2022-01-15, end 2024-01-15 and creation 2025-01-23T14:30 it returns
`lqdt_rates_2022-01-15_2024-01-15_2025-01-23_14-30.xlsx`. -/
theorem generate_output_filename_spec :
    (∀ (date_from date_to : Date) (created_at : DateTime),
      FetchLqdt.generate_output_filename date_from date_to created_at =
        "lqdt_rates_" ++ date_from.isoformat ++ "_" ++ date_to.isoformat ++ "_" ++
          created_at.fmtMinute ++ ".xlsx") ∧
    FetchLqdt.generate_output_filename ⟨2022, 1, 15⟩ ⟨2024, 1, 15⟩ ⟨2025, 1, 23, 14, 30⟩ =
      "lqdt_rates_2022-01-15_2024-01-15_2025-01-23_14-30.xlsx" :=
  ⟨fun _ _ _ => rfl, by decide⟩

/-- Claim C10: a record whose `Nominal` element is absent or has empty text,
with valid `Date` and `Value`, does not make `_parse_rates` fail: the nominal
defaults to 1 and the per-unit value is the quoted value quantized to 4
decimal places. -/
theorem parse_record_defaults_missing_nominal (ds vs : String) (nt : Option String)
    (d : Date) (v : Dec)
    (hds : ds.isEmpty = false) (hd : parseDateDMY ds = some d)
    (hv : parseDecimal (commaToDot vs) = some v)
    (hnt : nt = none ∨ nt = some "") :
    parseRecord ⟨some ds, some vs, nt⟩ = .ok ⟨d, ⟨quantizeDiv4 v ⟨1, 0⟩, 4⟩⟩ ∧
    Dec.toRat ⟨quantizeDiv4 v ⟨1, 0⟩, 4⟩ = quantize4 v.toRat := by
  constructor
  · have reduce_none : parseRecord ⟨some ds, some vs, none⟩ =
        .ok ⟨d, ⟨quantizeDiv4 v ⟨1, 0⟩, 4⟩⟩ := by
      unfold parseRecord
      simp only [falsyOptStr, hds, Option.isNone_some, Bool.or_self, Bool.false_eq_true,
        if_false, Option.getD_some, hd, hv]
      rw [if_neg (by decide : ¬((⟨1, 0⟩ : Dec).num = 0))]
    rcases hnt with hh | hh <;> subst hh
    · exact reduce_none
    · rw [show (parseRecord ⟨some ds, some vs, some ""⟩) =
          parseRecord ⟨some ds, some vs, none⟩ from rfl]
      exact reduce_none
  · have h1 : Dec.toRat ⟨1, 0⟩ = 1 := by norm_num [Dec.toRat]
    rw [quantizeDiv4_toRat v ⟨1, 0⟩ (by decide), h1, div_one]

theorem parse_record_defaults_missing_nominal_witness :
    parseRecord ⟨some "17.11.2025", some "94,2000", none⟩ =
      .ok ⟨⟨2025, 11, 17⟩, ⟨quantizeDiv4 ⟨942000, 4⟩ ⟨1, 0⟩, 4⟩⟩ :=
  (parse_record_defaults_missing_nominal "17.11.2025" "94,2000" none ⟨2025, 11, 17⟩
    ⟨942000, 4⟩ (by decide) (by decide) (by decide) (.inl rfl)).1
